/-
Verification of the azuredatastudio fragments:
  build/azure-pipelines/common/publish.js  (CI publish script)
  src/sql/base/browser/ui/table/tableCellEditorFactory.ts  (grid cell editors)

The JavaScript is shallowly embedded: every async external call is an
oracle outcome recorded in an environment structure, and the functions
are translated into pure Lean functions that return a result together
with the trace of external effects (or a call count).  Machine strings
are Lean String, JS regular expressions over literal text are modelled
as substring or prefix tests on the literal.
-/
import Mathlib

namespace Publish

/-- A JavaScript Error value: only the message field is inspected by the
retry helper of publish.js. -/
structure JsError where
  message : String
deriving DecidableEq, Repr

/-- The test performed by the retry helper of publish.js, line 201:
a regular-expression search for ECONNRESET inside err.message, which for
this literal pattern is a substring test. -/
def isConnReset (e : JsError) : Bool :=
  decide ( List.IsInfix "ECONNRESET".data e.message.data)

/-- RETRY_TIMES constant of publish.js, line 194. -/
def RETRY_TIMES : Nat := 10

/-- The retry loop of publish.js, lines 195-208, embedded with the
outcome of the run-th call of fn given by an oracle fn run, and the
number of calls actually made returned next to the result.  The first
argument is the current run index, the second the number of remaining
runs out of RETRY_TIMES. -/
def retryFrom {α : Type} (fn : Nat → Except JsError α) : Nat → Nat → Except JsError α × Nat
  | _, 0 => (.error ⟨"Retried too many times"⟩, 0)
  | run, r + 1 =>
    match fn run with
    | .ok a => (.ok a, 1)
    | .error e =>
      if isConnReset e then
        let p := retryFrom fn (run + 1) r
        (p.1, p.2 + 1)
      else (.error e, 1)

/-- retry of publish.js: runs start at 1 and at most RETRY_TIMES calls
are made. -/
def retry {α : Type} (fn : Nat → Except JsError α) : Except JsError α × Nat :=
  retryFrom fn 1 RETRY_TIMES

/-- The run-th call of fn fails with a connection-reset error. -/
def resetFails {α : Type} (fn : Nat → Except JsError α) (i : Nat) : Prop :=
  ∃ e, fn i = .error e ∧ isConnReset e = true

/-- A published asset, publish.js lines 158-169.  The JS object gets the
optional property supportsFastUpdate only for win32 platforms; absence is
modelled as the value false. -/
structure Asset where
  platform : String
  type : String
  url : String
  hash : String
  sha256hash : String
  size : Nat
  supportsFastUpdate : Bool
deriving DecidableEq, Repr

/-- A release document, publish.js lines 176-185.  The updates object is
modelled as an association list in key-insertion order, matching JS
object property semantics for string keys. -/
structure Release where
  id : String
  timestamp : Nat
  version : String
  isReleased : Bool
  sourceBranch : String
  queuedBy : String
  assets : List Asset
  updates : List (String × String)
deriving DecidableEq, Repr

/-- JS property assignment updates[p] = t on an object modelled as an
association list: an existing key keeps its position and gets the new
value, a fresh key is appended. -/
def setUpdate (u : List (String × String)) (p t : String) : List (String × String) :=
  if u.any (fun kv => kv.1 == p) then
    u.map (fun kv => if kv.1 == p then (p, t) else kv)
  else u ++ [(p, t)]

/-- JS property lookup updates[p] on the association-list model. -/
def lookupUpdate (u : List (String × String)) (p : String) : Option String :=
  (u.find? (fun kv => kv.1 == p)).map (fun kv => kv.2)

/-- The assets replacement performed by the update closure of
createOrUpdate, publish.js lines 72-75: drop every asset whose platform
and type both match, then append the new asset. -/
def updatedAssets (assets : List Asset) (platform type : String) (asset : Asset) : List Asset :=
  assets.filter (fun a => !(a.platform == platform && a.type == type)) ++ [asset]

/-- The full document update performed by the update closure of
createOrUpdate, publish.js lines 71-78.  It takes no upload-only input:
the flag is consulted only when the fresh document is built in publish. -/
def updatedRelease (existing : Release) (platform type : String) (asset : Asset)
    (isUpdate : Bool) : Release :=
  { existing with
    assets := updatedAssets existing.assets platform type asset,
    updates := if isUpdate then setUpdate existing.updates platform type else existing.updates }

/-- A documentdb error: createOrUpdate inspects only err.code. -/
structure DbError where
  code : Nat
  message : String
deriving DecidableEq, Repr

/-- A failure escaping createOrUpdate: either a database error or the
plain JS Error with message No documents, publish.js line 69. -/
inductive PubFailure where
  | dbErr (e : DbError)
  | jsErr (message : String)
deriving DecidableEq, Repr

/-- Oracle outcomes for the update closure: the n-th update attempt
queries existing documents (error, or a result list) and, when the query
yields exactly one document, replaces it (none meaning success). -/
structure UpdateEnv where
  queryOut : Nat → Except DbError (List Release)
  replaceOut : Nat → Option DbError

/-- The update closure of createOrUpdate, publish.js lines 60-92.
The argument n counts the update attempts already made, so the attempt
being run is attempt n + 1 (updateTries after the increment on line 61).
A replace conflict with code 409 recurses while updateTries < 5; the
second component counts the update attempts performed. -/
def updateGo (env : UpdateEnv) (n : Nat) : Except PubFailure Unit × Nat :=
  match env.queryOut (n + 1) with
  | .error e => (.error (.dbErr e), 1)
  | .ok results =>
    if results.length ≠ 1 then (.error (.jsErr "No documents"), 1)
    else
      match env.replaceOut (n + 1) with
      | some err =>
        if h : err.code = 409 ∧ n + 1 < 5 then
          let p := updateGo env (n + 1)
          (p.1, p.2 + 1)
        else (.error (.dbErr err), 1)
      | none => (.ok (), 1)
termination_by 5 - n
decreasing_by simp_wf; omega

/-- One attempt of the body of createOrUpdate, publish.js lines 93-105:
create the document; a 409 conflict falls back to the update closure,
any other error is propagated.  The outer retry wrapper is the retry
function modelled above.  The second component counts update attempts. -/
def createOrUpdateAttempt (createOut : Option DbError) (env : UpdateEnv) :
    Except PubFailure Unit × Nat :=
  match createOut with
  | some err => if err.code = 409 then updateGo env 0 else (.error (.dbErr err), 0)
  | none => (.ok (), 0)

/-- A quality config document, publish.js lines 27-32. -/
structure Config where
  id : String
  frozen : Bool
deriving DecidableEq, Repr

/-- External operations performed by publish, publish.js lines 136-192,
in the order awaited.  The two stream hashes are started together and
both awaited before anything later runs, so they form one step. -/
inductive Effect where
  | statFile (file : String)
  | hashStreams (file : String)
  | ensureContainer (quality : String)
  | checkBlob (quality blobName : String)
  | uploadBlob (quality blobName : String)
  | fetchConfig (quality : String)
  | upsertDoc (quality : String) (release : Release)
deriving DecidableEq, Repr

def Effect.isUpload : Effect → Bool
  | .uploadBlob _ _ => true
  | _ => false

def Effect.isFetchConfig : Effect → Bool
  | .fetchConfig _ => true
  | _ => false

def Effect.isDocWrite : Effect → Bool
  | .upsertDoc _ _ => true
  | _ => false

/-- Oracle outcomes of the external calls made by one run of publish,
together with the ambient environment variables and the clock. -/
structure PubEnv where
  statOut : Except JsError Nat
  hashOut : Except JsError (String × String)
  containerOut : Option JsError
  existsOut : Except JsError Bool
  uploadOut : Option JsError
  configOut : Except JsError Config
  upsertOut : Option JsError
  now : Nat
  queuedBy : String
  sourceBranch : String
  cdnUrl : String

/-- The positional command-line arguments of publish, publish.js line
218, plus the boolean upload-only option and the commit id. -/
structure PublishArgs where
  commit : String
  quality : String
  platform : String
  type : String
  name : String
  version : String
  isUpdateStr : String
  file : String
  uploadOnly : Bool
deriving DecidableEq, Repr

/-- Blob name commit/name, publish.js line 143. -/
def blobNameOf (args : PublishArgs) : String :=
  args.commit ++ "/" ++ args.name

/-- The asset record, publish.js lines 158-169.  The win32 test is the
regular expression win32 searched inside platform, a substring test. -/
def mkAsset (env : PubEnv) (args : PublishArgs) (sha1 sha256 : String) (size : Nat) : Asset :=
  { platform := args.platform
    type := args.type
    url := env.cdnUrl ++ "/" ++ args.quality ++ "/" ++ blobNameOf args
    hash := sha1
    sha256hash := sha256
    size := size
    supportsFastUpdate := decide ( List.IsInfix "win32".data args.platform.data) }

/-- The isReleased flag, publish.js lines 173-175.  The branch regular
expressions are two anchored alternatives (an equality test) for main
and two anchored prefixes for release branches; the queuedBy regular
expression is an unanchored search, a substring test in which the dot
metacharacter is treated as the literal dot. -/
def isReleasedFor (quality sourceBranch queuedBy : String) : Bool :=
  ((quality == "insider" && (sourceBranch == "main" || sourceBranch == "refs/heads/main")) ||
   (quality == "rc1" &&
    (sourceBranch.startsWith "release/" || sourceBranch.startsWith "refs/heads/release/"))) &&
  (decide ( List.IsInfix "Project Collection Service Accounts".data queuedBy.data) ||
   decide ( List.IsInfix "Microsoft.VisualStudio.Services.TFS".data queuedBy.data))

/-- The fresh release document handed to createOrUpdate, publish.js
lines 176-191: empty asset list and updates map, then, unless the
upload-only option is set, the asset is pushed and, for updates, the
platform entry recorded. -/
def mkRelease (env : PubEnv) (args : PublishArgs) (asset : Asset) (isUpdate : Bool) : Release :=
  let base : Release :=
    { id := args.commit
      timestamp := env.now
      version := args.version
      isReleased := isReleasedFor args.quality env.sourceBranch env.queuedBy
      sourceBranch := env.sourceBranch
      queuedBy := env.queuedBy
      assets := []
      updates := [] }
  if args.uploadOnly then base
  else
    { base with
      assets := [asset]
      updates := if isUpdate then setUpdate [] args.platform args.type else [] }

/-- The body of publish, publish.js lines 136-192, as a pure function of
the oracle outcomes: the result of the run plus the trace of external
operations in the order they are awaited.  A failing step ends the run
with that error; an already existing blob returns success early. -/
def publishTrace (env : PubEnv) (args : PublishArgs) : Except JsError Unit × List Effect :=
  let isUpdate := args.isUpdateStr == "true"
  let blobName := blobNameOf args
  match env.statOut with
  | .error e => (.error e, [.statFile args.file])
  | .ok size =>
    match env.hashOut with
    | .error e => (.error e, [.statFile args.file, .hashStreams args.file])
    | .ok (sha1, sha256) =>
      match env.containerOut with
      | some e => (.error e,
          [.statFile args.file, .hashStreams args.file, .ensureContainer args.quality])
      | none =>
        match env.existsOut with
        | .error e => (.error e,
            [.statFile args.file, .hashStreams args.file, .ensureContainer args.quality,
             .checkBlob args.quality blobName])
        | .ok true => (.ok (),
            [.statFile args.file, .hashStreams args.file, .ensureContainer args.quality,
             .checkBlob args.quality blobName])
        | .ok false =>
          match env.uploadOut with
          | some e => (.error e,
              [.statFile args.file, .hashStreams args.file, .ensureContainer args.quality,
               .checkBlob args.quality blobName, .uploadBlob args.quality blobName])
          | none =>
            match env.configOut with
            | .error e => (.error e,
                [.statFile args.file, .hashStreams args.file, .ensureContainer args.quality,
                 .checkBlob args.quality blobName, .uploadBlob args.quality blobName,
                 .fetchConfig args.quality])
            | .ok _config =>
              let asset := mkAsset env args sha1 sha256 size
              let release := mkRelease env args asset isUpdate
              match env.upsertOut with
              | some e => (.error e,
                  [.statFile args.file, .hashStreams args.file, .ensureContainer args.quality,
                   .checkBlob args.quality blobName, .uploadBlob args.quality blobName,
                   .fetchConfig args.quality, .upsertDoc args.quality release])
              | none => (.ok (),
                  [.statFile args.file, .hashStreams args.file, .ensureContainer args.quality,
                   .checkBlob args.quality blobName, .uploadBlob args.quality blobName,
                   .fetchConfig args.quality, .upsertDoc args.quality release])

/-- How the node process ends: an explicit process.exit with a code, or
the event loop draining, which ends the process with code zero. -/
inductive ProcessOutcome where
  | exited (code : Int)
  | finished
deriving DecidableEq, Repr

/-- Exit code of the process for each outcome. -/
def exitCode : ProcessOutcome → Int
  | .exited c => c
  | .finished => 0

/-- The JS falsiness test on the BUILD_SOURCEVERSION variable, publish.js
line 211: unset or the empty string. -/
def commitFalsy : Option String → Bool
  | none => true
  | some s => s.isEmpty

/-- One run of the whole script, publish.js lines 14-17 and 209-224: the
top-level argv length check exits with -1, a falsy BUILD_SOURCEVERSION
returns from main after a warning (so the process finishes with code 0
and performs no publish step), and a rejection of publish exits with 1
from the catch handler. -/
def scriptRun (argvLen : Nat) (commit : Option String) (env : PubEnv) (args : PublishArgs) :
    ProcessOutcome × List Effect :=
  if argvLen < 9 then (.exited (-1), [])
  else if commitFalsy commit then (.finished, [])
  else
    match publishTrace env args with
    | (.error _, tr) => (.exited 1, tr)
    | (.ok _, tr) => (.finished, tr)

end Publish

namespace Publish

/-- Number of assets of a release asset list carrying a given platform
and type. -/
def keyCount (assets : List Asset) (p t : String) : Nat :=
  assets.countP (fun a => a.platform == p && a.type == t)

/-- The release-document invariant: at most one asset per
(platform, type) pair. -/
def UniquePerKey (assets : List Asset) : Prop :=
  ∀ p t, keyCount assets p t ≤ 1

end Publish

namespace TableCellEditor

/-- Result of the validate method of the grid editor contract,
tableCellEditorFactory.ts: JS undefined is modelled as none. -/
structure ValidateResults where
  valid : Bool
  msg : Option String
deriving DecidableEq, Repr

/-- Observable state of a text cell editor produced by
getTextEditorClass: the remembered original value and the current value
of the input widget. -/
structure TextEditorState where
  originalValue : String
  inputValue : String
deriving DecidableEq, Repr

/-- loadValue of the text editor, tableCellEditorFactory.ts lines 76-79:
the value getter result (JS null or undefined modelled as none) with the
empty string substituted is stored as the original value and written to
the input widget.  Both state fields are overwritten, so the prior state
does not appear. -/
def textLoadValue (getterResult : Option String) : TextEditorState :=
  let orig := getterResult.getD ""
  { originalValue := orig, inputValue := orig }

/-- The user (or host grid) changing the input widget value. -/
def textSetWidgetValue (s : TextEditorState) (v : String) : TextEditorState :=
  { s with inputValue := v }

/-- serializeValue of the text editor, line 91-93. -/
def textSerializeValue (s : TextEditorState) : String :=
  s.inputValue

/-- isValueChanged of the text editor, lines 86-89; toString on a string
is the identity. -/
def textIsValueChanged (s : TextEditorState) : Bool :=
  s.inputValue != s.originalValue

/-- validate of the text editor, lines 95-100: a constant in the
source. -/
def textValidate (_s : TextEditorState) : ValidateResults :=
  { valid := true, msg := none }

/-- Observable state of a dropdown cell editor produced by
getDropdownEditorClass: original value, editable flag, the value of
whichever widget is active and its option list. -/
structure DropdownEditorState where
  originalValue : String
  isEditable : Bool
  widgetValue : String
  widgetOptions : List String
deriving DecidableEq, Repr

/-- validate of the dropdown editor, tableCellEditorFactory.ts lines
198-203: a constant in the source, for either widget kind. -/
def dropdownValidate (_s : DropdownEditorState) : ValidateResults :=
  { valid := true, msg := none }

end TableCellEditor

namespace Publish

/-- Concrete sample arguments used by the witnesses. -/
def argsSample : PublishArgs :=
  { commit := "c0ffee"
    quality := "insider"
    platform := "win32-x64"
    type := "archive"
    name := "ads.zip"
    version := "1.40.0"
    isUpdateStr := "true"
    file := "out.zip"
    uploadOnly := false }

/-- Sample oracle outcomes in which every call succeeds and the blob
already exists. -/
def envOkExists : PubEnv :=
  { statOut := .ok 100
    hashOut := .ok ("a1", "b2")
    containerOut := none
    existsOut := .ok true
    uploadOut := none
    configOut := .ok { id := "insider", frozen := false }
    upsertOut := none
    now := 0
    queuedBy := "Project Collection Service Accounts"
    sourceBranch := "main"
    cdnUrl := "https://cdn.example" }

/-- Sample oracle outcomes in which every call succeeds and the blob is
new. -/
def envOkFresh : PubEnv :=
  { envOkExists with existsOut := .ok false }

/-- Sample oracle outcomes in which the initial file stat fails. -/
def envStatFail : PubEnv :=
  { envOkExists with statOut := .error { message := "ENOENT" } }

/-- Sample update-closure oracle: queries return an empty result list
and replacement succeeds. -/
def updateEnvConst : UpdateEnv :=
  { queryOut := fun _ => .ok [], replaceOut := fun _ => none }

/-- Sample asset for the witnesses. -/
def assetSample : Asset :=
  { platform := "win32-x64"
    type := "archive"
    url := "https://cdn.example/insider/c0ffee/ads.zip"
    hash := "a1"
    sha256hash := "b2"
    size := 100
    supportsFastUpdate := true }

end Publish

namespace Publish

theorem retryFrom_skip {α : Type} (fn : Nat → Except JsError α) (j : Nat) :
    ∀ run r, (∀ i, run ≤ i → i < run + j → resetFails fn i) → j ≤ r →
    retryFrom fn run r =
      ((retryFrom fn (run + j) (r - j)).1, (retryFrom fn (run + j) (r - j)).2 + j) := by
  induction j with
  | zero => intro run r _ _; simp
  | succ j ih =>
    intro run r hfail hjr
    obtain ⟨r, rfl⟩ : ∃ r0, r = r0 + 1 := ⟨r - 1, by omega⟩
    obtain ⟨e, he, hreset⟩ := hfail run (Nat.le_refl _) (by omega)
    have step : retryFrom fn run (r + 1) =
        ((retryFrom fn (run + 1) r).1, (retryFrom fn (run + 1) r).2 + 1) := by
      simp only [retryFrom, he, hreset, if_true]
    rw [step, ih (run + 1) r (fun i h1 h2 => hfail i (by omega) (by omega)) (by omega)]
    have harith1 : run + 1 + j = run + (j + 1) := by omega
    have harith2 : r - j = r + 1 - (j + 1) := by omega
    rw [harith1, harith2]
    simp [Nat.add_assoc]

/-- Claim C3: a wrapped call that fails without ECONNRESET in its message
aborts the run at once with that error and no further call of fn; ten
straight connection resets exhaust the loop, which then fails with
Retried too many times after exactly ten calls; a successful call ends
the loop with that result unchanged. -/
theorem retry_behaviour {α : Type} (fn : Nat → Except JsError α) :
    (∀ k e, 1 ≤ k → k ≤ RETRY_TIMES → (∀ i, 1 ≤ i → i < k → resetFails fn i) →
      fn k = .error e → isConnReset e = false → retry fn = (.error e, k)) ∧
    ((∀ i, 1 ≤ i → i ≤ RETRY_TIMES → resetFails fn i) →
      retry fn = (.error ⟨"Retried too many times"⟩, RETRY_TIMES)) ∧
    (∀ k a, 1 ≤ k → k ≤ RETRY_TIMES → (∀ i, 1 ≤ i → i < k → resetFails fn i) →
      fn k = .ok a → retry fn = (.ok a, k)) := by
  refine ⟨?_, ?_, ?_⟩
  · intro k e hk1 hk10 hfail he hnr
    have hskip := retryFrom_skip fn (k - 1) 1 RETRY_TIMES
      (fun i h1 h2 => hfail i h1 (by omega)) (by simp only [RETRY_TIMES] at hk10 ⊢; omega)
    have hrun : 1 + (k - 1) = k := by omega
    rw [hrun] at hskip
    obtain ⟨m, hm⟩ : ∃ m, RETRY_TIMES - (k - 1) = m + 1 :=
      ⟨RETRY_TIMES - k, by simp [RETRY_TIMES] at hk10 ⊢; omega⟩
    rw [hm] at hskip
    have hstep : retryFrom fn k (m + 1) = (.error e, 1) := by
      simp only [retryFrom, he, hnr, if_false, Bool.false_eq_true]
    rw [retry, hskip, hstep]
    simp only [Prod.mk.injEq, true_and]
    omega
  · intro hfail
    have hskip := retryFrom_skip fn RETRY_TIMES 1 RETRY_TIMES
      (fun i h1 h2 => hfail i h1 (by omega)) (Nat.le_refl _)
    rw [retry, hskip]
    simp [retryFrom]
  · intro k a hk1 hk10 hfail he
    have hskip := retryFrom_skip fn (k - 1) 1 RETRY_TIMES
      (fun i h1 h2 => hfail i h1 (by omega)) (by simp only [RETRY_TIMES] at hk10 ⊢; omega)
    have hrun : 1 + (k - 1) = k := by omega
    rw [hrun] at hskip
    obtain ⟨m, hm⟩ : ∃ m, RETRY_TIMES - (k - 1) = m + 1 :=
      ⟨RETRY_TIMES - k, by simp [RETRY_TIMES] at hk10 ⊢; omega⟩
    rw [hm] at hskip
    have hstep : retryFrom fn k (m + 1) = (.ok a, 1) := by
      simp only [retryFrom, he]
    rw [retry, hskip, hstep]
    simp only [Prod.mk.injEq, true_and]
    omega

/-- Witness for Claim C3: a first call failing with a message free of
ECONNRESET ends the loop at once with that error after one call. -/
theorem retry_behaviour_witness :
    retry (fun _ => (.error ⟨"boom"⟩ : Except JsError Nat)) = (.error ⟨"boom"⟩, 1) :=
  (retry_behaviour (fun _ => (.error ⟨"boom"⟩ : Except JsError Nat))).1 1 ⟨"boom"⟩
    (by decide) (by decide) (fun i h1 h2 => absurd (Nat.lt_of_le_of_lt h1 h2) (by decide))
    rfl (by decide)

end Publish

namespace Publish

theorem updateGo_calls_le (env : UpdateEnv) :
    ∀ m n, n + m = 5 → 1 ≤ m → (updateGo env n).2 ≤ m := by
  intro m
  induction m with
  | zero => intro n _ h; omega
  | succ m ih =>
    intro n hnm _
    rw [updateGo]
    cases hq : env.queryOut (n + 1) with
    | error e => simp
    | ok results =>
      by_cases hlen : results.length ≠ 1
      · simp [hlen]
      · cases hr : env.replaceOut (n + 1) with
        | none => simp [hlen]
        | some err =>
          by_cases hc : err.code = 409 ∧ n + 1 < 5
          · have hbound := ih (n + 1) (by omega) (by omega)
            simp only [if_neg hlen, dif_pos hc]
            show (updateGo env (n + 1)).2 + 1 ≤ m + 1
            omega
          · simp [hlen, hc]

/-- Claim C4: a 409 conflict from the creation call falls back to the
update closure instead of failing, any other creation error is
propagated; inside the update closure a 409 conflict from the replace
call runs one more update attempt while fewer than five attempts have
been made, any other replace error is propagated, and no run ever makes
more than five update attempts. -/
theorem createOrUpdate_conflict_handling (env : UpdateEnv) :
    (∀ e : DbError, e.code = 409 → createOrUpdateAttempt (some e) env = updateGo env 0) ∧
    (∀ e : DbError, e.code ≠ 409 →
      createOrUpdateAttempt (some e) env = (.error (.dbErr e), 0)) ∧
    (∀ n rs err, env.queryOut (n + 1) = .ok rs → rs.length = 1 →
      env.replaceOut (n + 1) = some err → err.code = 409 → n + 1 < 5 →
      updateGo env n = ((updateGo env (n + 1)).1, (updateGo env (n + 1)).2 + 1)) ∧
    (∀ n rs err, env.queryOut (n + 1) = .ok rs → rs.length = 1 →
      env.replaceOut (n + 1) = some err → err.code ≠ 409 →
      updateGo env n = (.error (.dbErr err), 1)) ∧
    (updateGo env 0).2 ≤ 5 := by
  refine ⟨?_, ?_, ?_, ?_, updateGo_calls_le env 5 0 rfl (by omega)⟩
  · intro e he
    simp [createOrUpdateAttempt, he]
  · intro e he
    simp [createOrUpdateAttempt, he]
  · intro n rs err hq hlen hr hcode hlt
    rw [updateGo, hq]
    simp [hlen, hr, hcode, hlt]
  · intro n rs err hq hlen hr hcode
    rw [updateGo, hq]
    simp [hlen, hr, hcode]

/-- Witness for Claim C4: a creation conflict with code 409 hands the
run over to the update closure. -/
theorem createOrUpdate_conflict_handling_witness :
    createOrUpdateAttempt (some ⟨409, "conflict"⟩) updateEnvConst =
      updateGo updateEnvConst 0 :=
  (createOrUpdate_conflict_handling updateEnvConst).1 ⟨409, "conflict"⟩ rfl

end Publish

namespace Publish

/-- Claim C2: starting from an assets list with at most one entry per
(platform, type) pair, the filter-then-append replacement of the update
closure leaves exactly one entry for the published pair and keeps the
at-most-one invariant for every pair. -/
theorem update_preserves_asset_uniqueness (assets : List Asset) (asset : Asset)
    (p t : String) (hp : asset.platform = p) (ht : asset.type = t)
    (hinv : UniquePerKey assets) :
    keyCount (updatedAssets assets p t asset) p t = 1 ∧
    UniquePerKey (updatedAssets assets p t asset) := by
  subst hp ht
  have hzero : (assets.filter
      (fun a => !(a.platform == asset.platform && a.type == asset.type))).countP
      (fun a => a.platform == asset.platform && a.type == asset.type) = 0 := by
    rw [List.countP_eq_zero]
    intro a ha
    have hfa := (List.mem_filter.mp ha).2
    simp only [Bool.not_eq_true'] at hfa
    simp [hfa]
  have hcount : ∀ p0 t0,
      keyCount (updatedAssets assets asset.platform asset.type asset) p0 t0 =
      (assets.filter
        (fun a => !(a.platform == asset.platform && a.type == asset.type))).countP
        (fun a => a.platform == p0 && a.type == t0) +
      (if asset.platform == p0 && asset.type == t0 then 1 else 0) := by
    intro p0 t0
    simp [keyCount, updatedAssets, List.countP_append, List.countP_singleton]
  constructor
  · rw [hcount, hzero]
    simp
  · intro p0 t0
    by_cases hkey : asset.platform = p0 ∧ asset.type = t0
    · obtain ⟨hkp, hkt⟩ := hkey
      rw [← hkp, ← hkt, hcount, hzero]
      simp
    · rw [hcount]
      have hfilter : (assets.filter
          (fun a => !(a.platform == asset.platform && a.type == asset.type))).countP
          (fun a => a.platform == p0 && a.type == t0) ≤ keyCount assets p0 t0 := by
        rw [List.countP_filter, keyCount]
        apply List.countP_mono_left
        intro a _ h
        simp only [Bool.and_eq_true] at h
        simp [h.1.1, h.1.2]
      have hasset : (asset.platform == p0 && asset.type == t0) = false := by
        rcases not_and_or.mp hkey with h | h
        · simp [beq_eq_false_iff_ne.mpr h]
        · simp [beq_eq_false_iff_ne.mpr h]
      rw [hasset]
      have hle := hinv p0 t0
      simp only [Bool.false_eq_true, if_false]
      omega

/-- Witness for Claim C2: updating an empty asset list installs exactly
one asset for the published pair. -/
theorem update_preserves_asset_uniqueness_witness :
    keyCount (updatedAssets [] "win32-x64" "archive" assetSample)
      "win32-x64" "archive" = 1 :=
  (update_preserves_asset_uniqueness [] assetSample "win32-x64" "archive" rfl rfl
    (fun p t => by simp [keyCount])).1

end Publish

namespace Publish

/-- Claim C1: whenever the run reaches the blob-existence check and the
blob commit/name is already present, publish succeeds right there: the
trace stops at the check, so no blob upload, no quality-config fetch and
no document write happen.  Re-running publish with an existing blob name
is therefore a no-op. -/
theorem publish_blobExists_noop (env : PubEnv) (args : PublishArgs)
    (hstat : ∃ n, env.statOut = .ok n)
    (hhash : ∃ hs, env.hashOut = .ok hs)
    (hcont : env.containerOut = none)
    (hex : env.existsOut = .ok true) :
    publishTrace env args = (.ok (),
      [.statFile args.file, .hashStreams args.file, .ensureContainer args.quality,
       .checkBlob args.quality (blobNameOf args)]) ∧
    (publishTrace env args).2.all
      (fun eff => !eff.isUpload && !eff.isFetchConfig && !eff.isDocWrite) = true := by
  obtain ⟨size, hstat⟩ := hstat
  obtain ⟨⟨sha1, sha256⟩, hhash⟩ := hhash
  have htrace : publishTrace env args = (.ok (),
      [.statFile args.file, .hashStreams args.file, .ensureContainer args.quality,
       .checkBlob args.quality (blobNameOf args)]) := by
    rw [publishTrace, hstat, hhash, hcont, hex]
  refine ⟨htrace, ?_⟩
  rw [htrace]
  simp [Effect.isUpload, Effect.isFetchConfig, Effect.isDocWrite]

/-- Witness for Claim C1: with every earlier call succeeding and the
blob reported as existing, the trace ends at the existence check. -/
theorem publish_blobExists_noop_witness :
    publishTrace envOkExists argsSample = (.ok (),
      [.statFile argsSample.file, .hashStreams argsSample.file,
       .ensureContainer argsSample.quality,
       .checkBlob argsSample.quality (blobNameOf argsSample)]) :=
  (publish_blobExists_noop envOkExists argsSample ⟨100, rfl⟩ ⟨("a1", "b2"), rfl⟩
    rfl rfl).1

/-- Claim C6: a successful uploading run performs exactly the sequence
stat, hash both streams, ensure container, check blob, upload blob,
fetch config, upsert document, in this order; and a document write can
appear in a trace only when every one of the earlier steps succeeded
and the blob was absent, so no document write occurs if any earlier
step fails. -/
theorem publish_operation_order (args : PublishArgs) :
    (∀ (env : PubEnv) (size : Nat) (sha1 sha256 : String) (cfg : Config),
      env.statOut = .ok size → env.hashOut = .ok (sha1, sha256) →
      env.containerOut = none → env.existsOut = .ok false →
      env.uploadOut = none → env.configOut = .ok cfg → env.upsertOut = none →
      publishTrace env args = (.ok (),
        [.statFile args.file, .hashStreams args.file, .ensureContainer args.quality,
         .checkBlob args.quality (blobNameOf args),
         .uploadBlob args.quality (blobNameOf args), .fetchConfig args.quality,
         .upsertDoc args.quality
           (mkRelease env args (mkAsset env args sha1 sha256 size)
             (args.isUpdateStr == "true"))])) ∧
    (∀ (env : PubEnv) (q : String) (r : Release),
      Effect.upsertDoc q r ∈ (publishTrace env args).2 →
      (∃ n, env.statOut = .ok n) ∧ (∃ hs, env.hashOut = .ok hs) ∧
      env.containerOut = none ∧ env.existsOut = .ok false ∧
      env.uploadOut = none ∧ (∃ c, env.configOut = .ok c)) := by
  constructor
  · intro env size sha1 sha256 cfg hstat hhash hcont hex hupload hconfig hupsert
    rw [publishTrace, hstat, hhash, hcont, hex, hupload, hconfig, hupsert]
  · intro env q r hmem
    rw [publishTrace] at hmem
    cases hstat : env.statOut with
    | error e => rw [hstat] at hmem; simp at hmem
    | ok size =>
      rw [hstat] at hmem
      cases hhash : env.hashOut with
      | error e => rw [hhash] at hmem; simp at hmem
      | ok hs =>
        obtain ⟨sha1, sha256⟩ := hs
        rw [hhash] at hmem
        cases hcont : env.containerOut with
        | some e => rw [hcont] at hmem; simp at hmem
        | none =>
          rw [hcont] at hmem
          cases hex : env.existsOut with
          | error e => rw [hex] at hmem; simp at hmem
          | ok b =>
            rw [hex] at hmem
            cases b with
            | true => simp at hmem
            | false =>
              cases hupload : env.uploadOut with
              | some e => rw [hupload] at hmem; simp at hmem
              | none =>
                rw [hupload] at hmem
                cases hconfig : env.configOut with
                | error e => rw [hconfig] at hmem; simp at hmem
                | ok cfg =>
                  rw [hconfig] at hmem
                  exact ⟨⟨size, rfl⟩, ⟨(sha1, sha256), rfl⟩, rfl, rfl, rfl, ⟨cfg, rfl⟩⟩

/-- Witness for Claim C6: the all-success trace on the sample run. -/
theorem publish_operation_order_witness :
    publishTrace envOkFresh argsSample = (.ok (),
      [.statFile argsSample.file, .hashStreams argsSample.file,
       .ensureContainer argsSample.quality,
       .checkBlob argsSample.quality (blobNameOf argsSample),
       .uploadBlob argsSample.quality (blobNameOf argsSample),
       .fetchConfig argsSample.quality,
       .upsertDoc argsSample.quality
         (mkRelease envOkFresh argsSample
           (mkAsset envOkFresh argsSample "a1" "b2" 100)
           (argsSample.isUpdateStr == "true"))]) :=
  (publish_operation_order argsSample).1 envOkFresh 100 "a1" "b2"
    { id := "insider", frozen := false } rfl rfl rfl rfl rfl rfl rfl

end Publish

namespace Publish

/-- Claim C7: a run with too few command-line arguments exits with -1,
and a run whose publish rejects exits with 1 from the catch handler;
both exit codes are non-zero. -/
theorem script_exit_nonzero_on_failure (argvLen : Nat) (commit : Option String)
    (env : PubEnv) (args : PublishArgs) :
    (argvLen < 9 → scriptRun argvLen commit env args = (.exited (-1), []) ∧
      exitCode (scriptRun argvLen commit env args).1 ≠ 0) ∧
    (9 ≤ argvLen → commitFalsy commit = false →
      ∀ e tr, publishTrace env args = (.error e, tr) →
      (scriptRun argvLen commit env args).1 = .exited 1 ∧
      exitCode (scriptRun argvLen commit env args).1 ≠ 0) := by
  constructor
  · intro hlen
    rw [scriptRun, if_pos hlen]
    exact ⟨rfl, by simp [exitCode]⟩
  · intro hlen hcommit e tr hpub
    have hnotlt : ¬argvLen < 9 := by omega
    rw [scriptRun, if_neg hnotlt, hcommit, hpub]
    exact ⟨rfl, by simp [exitCode]⟩

/-- Witness for Claim C7: a failing file stat makes the sample run exit
with code 1. -/
theorem script_exit_nonzero_on_failure_witness :
    (scriptRun 9 (some "c0ffee") envStatFail argsSample).1 = .exited 1 :=
  ((script_exit_nonzero_on_failure 9 (some "c0ffee") envStatFail argsSample).2
    (by omega) rfl ⟨"ENOENT"⟩ [.statFile argsSample.file] rfl).1

/-- Claim C10: with BUILD_SOURCEVERSION unset or empty (and the argv
length check passed), main returns after the warning: the run performs
no external publish operation at all, the process finishes normally and
its exit code is zero. -/
theorem skip_publish_without_sourceversion (argvLen : Nat) (commit : Option String)
    (env : PubEnv) (args : PublishArgs)
    (hargv : 9 ≤ argvLen) (hcommit : commitFalsy commit = true) :
    scriptRun argvLen commit env args = (.finished, []) ∧
    exitCode (scriptRun argvLen commit env args).1 = 0 := by
  have hnotlt : ¬argvLen < 9 := by omega
  have hrun : scriptRun argvLen commit env args = (.finished, []) := by
    rw [scriptRun, if_neg hnotlt, hcommit]
    simp
  exact ⟨hrun, by rw [hrun]; rfl⟩

/-- Witness for Claim C10: a run with the commit variable unset. -/
theorem skip_publish_without_sourceversion_witness :
    scriptRun 9 none envOkFresh argsSample = (.finished, []) :=
  (skip_publish_without_sourceversion 9 none envOkFresh argsSample (by omega) rfl).1

theorem find_setUpdate_map (u : List (String × String)) (p t : String)
    (hany : u.any (fun kv => kv.1 == p) = true) :
    (u.map (fun kv => if kv.1 == p then (p, t) else kv)).find?
      (fun kv => kv.1 == p) = some (p, t) := by
  induction u with
  | nil => simp at hany
  | cons kv rest ih =>
    by_cases hk : (kv.1 == p) = true
    · have hpt : ((p, t).1 == p) = true := by simp
      rw [List.map_cons, if_pos hk,
        @List.find?_cons_of_pos _ (fun kv => kv.1 == p) (p, t) _ hpt]
    · have hkv : (kv.1 == p) = false := by rwa [Bool.not_eq_true] at hk
      have hrest : rest.any (fun kv => kv.1 == p) = true := by
        simp only [List.any_cons, hkv, Bool.false_or] at hany
        exact hany
      rw [List.map_cons, if_neg hk,
        @List.find?_cons_of_neg _ (fun kv => kv.1 == p) kv _ hk]
      exact ih hrest

theorem find_append_new (u : List (String × String)) (p t : String)
    (hany : u.any (fun kv => kv.1 == p) = false) :
    (u ++ [(p, t)]).find? (fun kv => kv.1 == p) = some (p, t) := by
  induction u with
  | nil => simp
  | cons kv rest ih =>
    simp only [List.any_cons, Bool.or_eq_false_iff] at hany
    have hne : ¬((kv.1 == p) = true) := by simp [hany.1]
    rw [List.cons_append, @List.find?_cons_of_neg _ (fun kv => kv.1 == p) kv _ hne]
    exact ih hany.2

theorem lookupUpdate_setUpdate (u : List (String × String)) (p t : String) :
    lookupUpdate (setUpdate u p t) p = some t := by
  rw [lookupUpdate, setUpdate]
  by_cases hany : u.any (fun kv => kv.1 == p) = true
  · rw [if_pos hany, find_setUpdate_map u p t hany]
    rfl
  · rw [if_neg hany, find_append_new u p t (Bool.not_eq_true _ ▸ hany)]
    rfl

/-- Claim C8: the upload-only flag empties the assets list and updates
map of the freshly created document only; the update path of an existing
document, which has no upload-only input in the source, still appends
the asset and, for updates, records the platform entry. -/
theorem uploadOnly_create_path_only (env : PubEnv) (args : PublishArgs)
    (asset : Asset) (isUpdate : Bool) :
    (args.uploadOnly = true → (mkRelease env args asset isUpdate).assets = [] ∧
      (mkRelease env args asset isUpdate).updates = []) ∧
    (args.uploadOnly = false → (mkRelease env args asset isUpdate).assets = [asset] ∧
      (mkRelease env args asset isUpdate).updates =
        (if isUpdate then [(args.platform, args.type)] else [])) ∧
    (∀ existing p t, asset ∈ (updatedRelease existing p t asset isUpdate).assets ∧
      (isUpdate = true →
        lookupUpdate (updatedRelease existing p t asset isUpdate).updates p = some t)) := by
  refine ⟨?_, ?_, ?_⟩
  · intro huo
    rw [mkRelease]
    simp [huo]
  · intro huo
    rw [mkRelease]
    simp [huo, setUpdate]
  · intro existing p t
    constructor
    · simp [updatedRelease, updatedAssets]
    · intro hu
      simp only [updatedRelease, hu, if_true]
      exact lookupUpdate_setUpdate existing.updates p t

/-- Witness for Claim C8: with upload-only set, the fresh document for
the sample run carries no assets and no updates entry. -/
theorem uploadOnly_create_path_only_witness :
    (mkRelease envOkFresh { argsSample with uploadOnly := true } assetSample true).assets
      = [] :=
  ((uploadOnly_create_path_only envOkFresh { argsSample with uploadOnly := true }
    assetSample true).1 rfl).1

end Publish

namespace TableCellEditor

/-- Claim C5: validate of the text editor and of the dropdown editor
returns valid true with no message in every state. -/
theorem validate_always_valid :
    (∀ s : TextEditorState, textValidate s = { valid := true, msg := none }) ∧
    (∀ s : DropdownEditorState, dropdownValidate s = { valid := true, msg := none }) :=
  ⟨fun _ => rfl, fun _ => rfl⟩

/-- Claim C9: right after loadValue, serializeValue returns the getter
value with the empty string substituted for a missing one, and
isValueChanged is false; once the widget value is changed to v,
isValueChanged is exactly the disequality of v with the loaded original
value. -/
theorem loadValue_serialize_isChanged (g : Option String) (v : String) :
    textSerializeValue (textLoadValue g) = g.getD "" ∧
    textIsValueChanged (textLoadValue g) = false ∧
    textIsValueChanged (textSetWidgetValue (textLoadValue g) v) = (v != g.getD "") := by
  refine ⟨rfl, ?_, rfl⟩
  simp [textIsValueChanged, textLoadValue]

end TableCellEditor
